import Mathlib

/-!
Verification of the notifier package: a concurrent fan-out dispatcher
(Client) with a bounded admission gate (buffered channel used as a counting
semaphore), a token-bucket rate limiter, a cancellation scope and a
replaceable error callback.  The Go source is shallowly embedded below:
pure functions become Lean functions, the global mutable DefaultParams
value becomes an explicit World record threaded through `create`, channel
nondeterminism in `Notify` becomes an explicit admission oracle, and the
side effects of a call (spawned tasks, ErrorSink invocations) are returned
as data.
-/

namespace Notifier

/-! ## Error taxonomy (errors.go) -/

/-- Error kind used by NotifyErr when context has been canceled
(Go constant TypeContextCanceled, iota value 0). -/
def TypeContextCanceled : Nat := 0

/-- Error kind used by NotifyErr when the workers limit is exceeded
(Go constant TypeWorkersLimitExceeded, iota value 1). -/
def TypeWorkersLimitExceeded : Nat := 1

/-- Error kind used by NotifyErr when a message could not be sent
(Go constant TypeSendError, iota value 2). -/
def TypeSendError : Nat := 2

/-- Sub-message for a request-construction failure (Go msgSendErrorRequest). -/
def msgSendErrorRequest : String := "Fail send message, unable to create request"

/-- Sub-message for a rate-limiter failure (Go msgSendErrorRateLimiter). -/
def msgSendErrorRateLimiter : String := "Fail send message, rate limiter error"

/-- Sub-message for a transport-call failure (Go msgSendErrorClient). -/
def msgSendErrorClient : String := "Fail send message, unable to do request"

/-- An underlying (wrapped) Go error as it occurs in this package: either the
context.Canceled sentinel or some other error identified by its text.  In the
source every error stored in the Err field of a NotifyErr is one of these
(ctx.Err(), a request-construction error, a limiter error, a transport error);
none of them is itself a NotifyErr. -/
inductive GoCause where
  | contextCanceled : GoCause
  | msg : String → GoCause
deriving DecidableEq, Repr

/-- The NotifyErr struct of the source.  The Go field Type is rendered as
`type` because `Type` is reserved in Lean; Err is the optional wrapped
cause (nil becomes none). -/
structure NotifyErr where
  type : Nat
  Message : String
  Err : Option GoCause
deriving DecidableEq, Repr

/-- A Go error value as visible to callers of this package: either a plain
(non-NotifyErr) error or a NotifyErr. -/
inductive GoError where
  | raw : GoCause → GoError
  | nerr : NotifyErr → GoError
deriving DecidableEq, Repr

/-- Unwrap of NotifyErr: returns the wrapped cause (Go method Unwrap). -/
def NotifyErr.Unwrap (e : NotifyErr) : Option GoCause := e.Err

/-- Is of NotifyErr (Go method Is): the target is first type-asserted to
*NotifyErr; a non-NotifyErr target yields false, otherwise the two kinds are
compared and nothing else. -/
def NotifyErr.Is (e : NotifyErr) (target : GoError) : Bool :=
  match target with
  | GoError.raw _ => false
  | GoError.nerr t => e.type == t.type

/-- A GoError counts as ContextCanceled-flavored when it is the
context.Canceled sentinel itself or a NotifyErr of kind TypeContextCanceled. -/
def isContextCanceledFlavored : GoError → Bool
  | GoError.raw GoCause.contextCanceled => true
  | GoError.raw (GoCause.msg _) => false
  | GoError.nerr e => e.type == TypeContextCanceled

/-! ## Configuration and sizing policy (notifier.go: ClientParams,
DefaultParams, calculateOptimalWorkersLimit, create) -/

/-- ClientParams of the source; MaxRequestRate is a time.Duration rendered
as an integer number of nanoseconds. -/
structure ClientParams where
  MaxConcurrentWorkers : Nat
  MaxRequestRate : Int
  MaxRequestsPerRate : Int
deriving DecidableEq, Repr

/-- The connection-limit fields of an *http.Transport that the sizing policy
reads (all Go ints). -/
structure Transport where
  MaxConnsPerHost : Int
  MaxIdleConnsPerHost : Int
  MaxIdleConns : Int
deriving DecidableEq, Repr

/-- The mutable package-global state: the shared DefaultParams value. -/
structure World where
  DefaultParams : ClientParams
deriving DecidableEq, Repr

/-- The initial value of the DefaultParams package variable:
concurrency 100, rate window 10 seconds (in nanoseconds), 100 requests per
window. -/
def initialDefaultParams : ClientParams :=
  { MaxConcurrentWorkers := 100
    MaxRequestRate := 10 * 1000000000
    MaxRequestsPerRate := 100 }

/-- The package-global state at process start. -/
def initialWorld : World := { DefaultParams := initialDefaultParams }

/-- calculateOptimalWorkersLimit of the source.  `defaultParams` is the
DefaultParams global read at call time, `rlimit` is the RLIMIT_NOFILE soft
limit when syscall.Getrlimit succeeds (none when it fails), and `transport`
is some t exactly when the http.RoundTripper type-asserts to *http.Transport.
The Go cast uint64(x) under the guard x > 0 is Int.toNat. -/
def calculateOptimalWorkersLimit (defaultParams : ClientParams)
    (rlimit : Option Nat) (transport : Option Transport) : Nat :=
  let limit := defaultParams.MaxConcurrentWorkers
  let limit :=
    match rlimit with
    | some cur => if cur < limit then cur else limit
    | none => limit
  match transport with
  | some t =>
      if 0 < t.MaxConnsPerHost ∧ t.MaxConnsPerHost.toNat < limit then
        t.MaxConnsPerHost.toNat
      else if 0 < t.MaxIdleConnsPerHost ∧ t.MaxIdleConnsPerHost.toNat < limit then
        t.MaxIdleConnsPerHost.toNat
      else if 0 < t.MaxIdleConns ∧ t.MaxIdleConns.toNat < limit then
        t.MaxIdleConns.toNat
      else limit
  | none => limit

/-- Identity of an error handler held in the notifyError field: the no-op
default installed by create, or a caller-supplied handler identified
opaquely. -/
inductive Handler where
  | noop : Handler
  | custom : Nat → Handler
deriving DecidableEq, Repr

/-- A message payload (Go []byte), as a list of bytes. -/
abbrev Message := List Nat

/-- The Client struct of the source.  The context is modelled by the
`stopped` flag (ctx.Err() is non-nil exactly when Stop has run);
workersLimiterCap is cap(workersLimiter); rateEvery and burst are the
arguments passed to rate.NewLimiter. -/
structure Client where
  url : String
  notifyError : Handler
  stopped : Bool
  workersLimiterCap : Nat
  rateEvery : Int
  burst : Int
deriving DecidableEq, Repr

/-- create of the source.  When params is nil, params aliases the global
DefaultParams, so both the optimal-limit write and the zero-coercion write
through to the World; when params is non-nil the World is untouched. -/
def create (url : String) (params : Option ClientParams)
    (transport : Option Transport) (rlimit : Option Nat) (w : World) :
    Client × World :=
  match params with
  | none =>
      let p0 : ClientParams :=
        { w.DefaultParams with
            MaxConcurrentWorkers :=
              calculateOptimalWorkersLimit w.DefaultParams rlimit transport }
      let p1 : ClientParams :=
        if p0.MaxConcurrentWorkers = 0 then
          { p0 with MaxConcurrentWorkers := 1 }
        else p0
      ({ url := url
         notifyError := Handler.noop
         stopped := false
         workersLimiterCap := p1.MaxConcurrentWorkers
         rateEvery := p1.MaxRequestRate
         burst := p1.MaxRequestsPerRate },
       { DefaultParams := p1 })
  | some p =>
      let p1 : ClientParams :=
        if p.MaxConcurrentWorkers = 0 then
          { p with MaxConcurrentWorkers := 1 }
        else p
      ({ url := url
         notifyError := Handler.noop
         stopped := false
         workersLimiterCap := p1.MaxConcurrentWorkers
         rateEvery := p1.MaxRequestRate
         burst := p1.MaxRequestsPerRate },
       w)

/-- ctx.Err() of the Client context: context.Canceled once Stop has
tripped the scope, nil before. -/
def Client.ctxErr (c : Client) : Option GoError :=
  if c.stopped then some (GoError.raw GoCause.contextCanceled) else none

/-- Stop of the source: cancels the context. -/
def Client.Stop (c : Client) : Client := { c with stopped := true }

/-- OnError of the source: a nil handler (none) is ignored, a non-nil
handler replaces the current notifyError callback. -/
def Client.OnError (c : Client) (handler : Option Handler) : Client :=
  match handler with
  | some h => { c with notifyError := h }
  | none => c

/-! ## Notify (notifier.go) -/

/-- Everything a single Notify call returns and does: its two return values
(count, err), the messages for which a delivery task goroutine was spawned,
in order, and the ErrorSink invocations the call itself performed
synchronously, in order. -/
structure NotifyEffect where
  count : Nat
  err : Option GoError
  spawned : List Message
  sink : List (Message × NotifyErr)
deriving DecidableEq, Repr

/-- The admission loop of Notify.  `admits j` records whether the j-th
non-blocking send on the workersLimiter channel succeeds (the select
statement); i is the running count of already spawned messages.  On a full
gate the loop returns immediately with a WorkersLimitExceeded NotifyErr and
the remaining messages are dropped. -/
def notifyLoop (admits : Nat → Bool) : List Message → Nat → NotifyEffect
  | [], i => { count := i, err := none, spawned := [], sink := [] }
  | m :: rest, i =>
      if admits i then
        let r := notifyLoop admits rest (i + 1)
        { r with spawned := m :: r.spawned }
      else
        { count := i
          err := some (GoError.nerr
            { type := TypeWorkersLimitExceeded
              Message := "Workers limit exceeded"
              Err := none })
          spawned := []
          sink := [] }

/-- Notify of the source.  If the context is already canceled, every message
is reported to the ErrorSink as a ContextCanceled NotifyErr wrapping
ctx.Err(), the full batch length is returned together with ctx.Err(), and
nothing is spawned.  Otherwise the admission loop runs. -/
def Client.Notify (c : Client) (admits : Nat → Bool) (messages : List Message) :
    NotifyEffect :=
  match c.ctxErr with
  | some _ =>
      { count := messages.length
        err := some (GoError.raw GoCause.contextCanceled)
        spawned := []
        sink := messages.map fun m =>
          (m, { type := TypeContextCanceled
                Message := "Client context canceled"
                Err := some GoCause.contextCanceled }) }
  | none => notifyLoop admits messages 0

/-! ## The delivery task (notifier.go: worker) -/

/-- Outcomes of the three fallible external steps a worker performs, in
program order: http.NewRequestWithContext, requestsLimiter.Wait, client.Do.
A some value is the error returned by that step; none is success.  Later
fields are only consulted when every earlier step succeeded. -/
structure WorkerEnv where
  newRequest : Option GoCause
  limiterWait : Option GoCause
  transportDo : Option GoCause
deriving DecidableEq, Repr

/-- worker of the source, as the list of (message, NotifyErr) pairs it passes
to the ErrorSink.  Each failure is terminal for the task; on success no
callback is invoked.  The two defers (workers.Done and the workersLimiter
release) are unconditional and are modelled in the gate transition system
below. -/
def Client.worker (_c : Client) (env : WorkerEnv) (message : Message) :
    List (Message × NotifyErr) :=
  match env.newRequest with
  | some err =>
      [(message, { type := TypeSendError
                   Message := msgSendErrorRequest
                   Err := some err })]
  | none =>
      match env.limiterWait with
      | some err =>
          [(message, { type := TypeSendError
                       Message := msgSendErrorRateLimiter
                       Err := some err })]
      | none =>
          match env.transportDo with
          | some err =>
              [(message, { type := TypeSendError
                           Message := msgSendErrorClient
                           Err := some err })]
          | none => []

/-! ## Gate / waitgroup transition system

The admission gate (the buffered workersLimiter channel) and the
outstanding-task counter (the workers WaitGroup) as a guarded transition
system over interleavings of Notify admissions, worker exits and Stop.
An admission is the successful select send followed by workers.Add(1) and
the go statement; a worker exit runs the two deferred statements (channel
receive, workers.Done) whatever the outcome of the body was, which is why
the taskExit step is parametrised over every WorkerEnv but changes the
state in one single way. -/

/-- Observable shared state of one Client: the cancellation flag, the number
of tokens currently held in the workersLimiter channel, and the WaitGroup
counter. -/
structure GateState where
  stopped : Bool
  slotsUsed : Nat
  outstanding : Nat
deriving DecidableEq, Repr

/-- One atomic step over the shared state of a Client whose workersLimiter
channel has capacity cap.  acquire requires a free channel slot (the select
succeeds only then); taskExit fires for a running worker, whichever of the
four exit paths its body took, and always releases the slot and decrements
the counter; stop trips the cancellation scope. -/
inductive GateStep (cap : Nat) : GateState → GateState → Prop where
  | acquire (s : GateState) (m : Message) (h : s.slotsUsed < cap) :
      GateStep cap s
        { s with slotsUsed := s.slotsUsed + 1, outstanding := s.outstanding + 1 }
  | taskExit (s : GateState) (env : WorkerEnv) (hs : 0 < s.slotsUsed)
      (ho : 0 < s.outstanding) :
      GateStep cap s
        { s with slotsUsed := s.slotsUsed - 1, outstanding := s.outstanding - 1 }
  | stop (s : GateState) :
      GateStep cap s { s with stopped := true }

/-- States reachable from a freshly created Client (no tokens in the
channel, WaitGroup at zero, context live) by any interleaving of steps. -/
inductive GateReachable (cap : Nat) : GateState → Prop where
  | init : GateReachable cap { stopped := false, slotsUsed := 0, outstanding := 0 }
  | step {s s' : GateState} : GateReachable cap s → GateStep cap s s' →
      GateReachable cap s'

/-! ## Statement-side definitions -/

/-- The sizing rule as the C5 claim words it: take the minimum of the
default and the file-descriptor soft limit, then let the smallest positive
transport connection-limit hint below that minimum win, if any. -/
def claimedWorkersLimit (defaultLimit rlimitCur : Nat) (t : Transport) : Nat :=
  let base := min defaultLimit rlimitCur
  let below := List.filter
      (fun h => decide (0 < h) && decide (h.toNat < base))
      [t.MaxConnsPerHost, t.MaxIdleConnsPerHost, t.MaxIdleConns]
  match below.min? with
  | some m => m.toNat
  | none => base

/-- The sizing rule the source actually implements, phrased declaratively:
the first hint in the given priority order that is positive and below the
base wins; otherwise the base stands. -/
def firstHintBelow (base : Nat) (hints : List Int) : Nat :=
  match List.find? (fun h => decide (0 < h) && decide (h.toNat < base)) hints with
  | some h => h.toNat
  | none => base

/-- The handler left installed after a sequence of OnError calls starting
from the handler cur: the last non-nil entry of the sequence, or cur when
every entry is nil. -/
def lastNonNil (cur : Handler) : List (Option Handler) → Handler
  | [] => cur
  | none :: rest => lastNonNil cur rest
  | some h :: rest => lastNonNil h rest

/-- Folding a sequence of OnError calls over a Client, in order. -/
def applyOnErrorCalls (c : Client) (calls : List (Option Handler)) : Client :=
  List.foldl Client.OnError c calls

/-- A concrete live Client used to instantiate theorems. -/
def sampleClient : Client :=
  { url := "http://localhost:8080"
    notifyError := Handler.noop
    stopped := false
    workersLimiterCap := 2
    rateEvery := 1000000000
    burst := 1 }

/-! ## Theorems -/

/-- Every reachable state keeps the WaitGroup counter equal to the number of
held channel tokens and both below the channel capacity. -/
theorem gateReachable_invariant {cap : Nat} {s : GateState}
    (h : GateReachable cap s) :
    s.outstanding = s.slotsUsed ∧ s.slotsUsed ≤ cap := by
  induction h with
  | init => exact ⟨rfl, Nat.zero_le cap⟩
  | step _ hstep ih =>
      cases hstep with
      | acquire m hlt => exact ⟨by simp [ih.1], hlt⟩
      | taskExit env hs ho =>
          obtain ⟨h1, h2⟩ := ih
          exact ⟨by simp; omega, by simp; omega⟩
      | stop => exact ih

/-- If the gate admits each of the attempts i, i+1, ..., i+len-1, the
admission loop spawns one task per message, reports nothing, and counts
every message. -/
theorem notifyLoop_all_admitted (admits : Nat → Bool) (msgs : List Message)
    (i : Nat) (h : ∀ j, j < msgs.length → admits (i + j) = true) :
    notifyLoop admits msgs i =
      { count := i + msgs.length, err := none, spawned := msgs, sink := [] } := by
  induction msgs generalizing i with
  | nil => simp [notifyLoop]
  | cons m rest ih =>
      have h0 : admits i = true := by simpa using h 0 (by simp)
      have hrec := ih (i + 1) (fun j hj => by
        have hj1 : j + 1 < (m :: rest).length := by
          simpa using Nat.succ_lt_succ hj
        have hx := h (j + 1) hj1
        have heq : i + (j + 1) = i + 1 + j := by omega
        rw [heq] at hx
        exact hx)
      simp [notifyLoop, h0, hrec]
      omega

/-- If the gate admits the first k attempts and refuses attempt k while k
messages remain unprocessed, the admission loop stops at once: it spawns
exactly the first k messages, returns count i + k together with the
WorkersLimitExceeded NotifyErr, and reports nothing. -/
theorem notifyLoop_gate_full (admits : Nat → Bool) (msgs : List Message)
    (i k : Nat) (hk : k < msgs.length)
    (hadm : ∀ j, j < k → admits (i + j) = true)
    (hrej : admits (i + k) = false) :
    notifyLoop admits msgs i =
      { count := i + k
        err := some (GoError.nerr
          { type := TypeWorkersLimitExceeded
            Message := "Workers limit exceeded"
            Err := none })
        spawned := List.take k msgs
        sink := [] } := by
  induction msgs generalizing i k with
  | nil => simp at hk
  | cons m rest ih =>
      cases k with
      | zero =>
          have h0 : admits i = false := by simpa using hrej
          simp [notifyLoop, h0]
      | succ k =>
          have h0 : admits i = true := by
            simpa using hadm 0 (Nat.succ_pos k)
          have hrec := ih (i + 1) k
            (by simpa using Nat.lt_of_succ_lt_succ hk)
            (fun j hj => by
              have hx := hadm (j + 1) (Nat.succ_lt_succ hj)
              have heq : i + (j + 1) = i + 1 + j := by omega
              rw [heq] at hx
              exact hx)
            (by
              have heq : i + (k + 1) = i + 1 + k := by omega
              rw [heq] at hrej
              exact hrej)
          simp [notifyLoop, h0, hrec]
          omega

/-- C1: on a non-stopped Client whose admission gate reaches capacity after
admitting k messages of a longer batch, Notify stops iterating immediately
and returns (k, a WorkersLimitExceeded NotifyErr); exactly the first k
messages get a delivery task (k tasks in total) and the rest of the batch is
dropped with no task and no ErrorSink report. -/
theorem notify_gate_full_mid_batch (c : Client) (admits : Nat → Bool)
    (msgs : List Message) (k : Nat)
    (hstop : c.stopped = false) (hk : k < msgs.length)
    (hadm : ∀ j, j < k → admits j = true) (hrej : admits k = false) :
    c.Notify admits msgs =
      { count := k
        err := some (GoError.nerr
          { type := TypeWorkersLimitExceeded
            Message := "Workers limit exceeded"
            Err := none })
        spawned := List.take k msgs
        sink := [] }
    ∧ (List.take k msgs).length = k := by
  constructor
  · have hx := notifyLoop_gate_full admits msgs 0 k hk
      (fun j hj => by simpa using hadm j hj) (by simpa using hrej)
    simpa [Client.Notify, Client.ctxErr, hstop] using hx
  · simp [List.length_take]
    omega

/-- Closed instance of notify_gate_full_mid_batch: capacity-2 behaviour on a
three-message batch whose gate admits exactly the first two attempts. -/
theorem notify_gate_full_mid_batch_witness :
    Client.Notify sampleClient (fun j => decide (j < 2)) [[0], [1], [2]] =
      { count := 2
        err := some (GoError.nerr
          { type := TypeWorkersLimitExceeded
            Message := "Workers limit exceeded"
            Err := none })
        spawned := [[0], [1]]
        sink := [] }
    ∧ (List.take 2 [([0] : Message), [1], [2]]).length = 2 :=
  notify_gate_full_mid_batch sampleClient (fun j => decide (j < 2))
    [[0], [1], [2]] 2 rfl (by decide)
    (fun j hj => decide_eq_true hj) (by decide)

/-- C2: on a non-stopped Client, if every message of the batch acquires an
admission slot, Notify returns (batch length, nil) and spawns exactly one
delivery task per message, in batch order, with no ErrorSink report. -/
theorem notify_all_admitted (c : Client) (admits : Nat → Bool)
    (msgs : List Message) (hstop : c.stopped = false)
    (hadm : ∀ j, j < msgs.length → admits j = true) :
    c.Notify admits msgs =
      { count := msgs.length, err := none, spawned := msgs, sink := [] } := by
  have hx := notifyLoop_all_admitted admits msgs 0
    (fun j hj => by simpa using hadm j hj)
  simpa [Client.Notify, Client.ctxErr, hstop] using hx

/-- Closed instance of notify_all_admitted: a fully admitted two-message
batch. -/
theorem notify_all_admitted_witness :
    Client.Notify sampleClient (fun _ => true) [[7], [8]] =
      { count := 2, err := none, spawned := [[7], [8]], sink := [] } :=
  notify_all_admitted sampleClient (fun _ => true) [[7], [8]] rfl
    (fun _ _ => rfl)

/-- C3: on a stopped Client, Notify reports every message of a non-empty
batch to the ErrorSink exactly once (one report per batch position, in
order) as a ContextCanceled NotifyErr wrapping ctx.Err(), spawns nothing,
and returns the full batch length together with a non-nil
ContextCanceled-flavored error. -/
theorem notify_after_stop (c : Client) (admits : Nat → Bool)
    (msgs : List Message) (hstop : c.stopped = true) (_hne : msgs ≠ []) :
    c.Notify admits msgs =
      { count := msgs.length
        err := some (GoError.raw GoCause.contextCanceled)
        spawned := []
        sink := msgs.map fun m =>
          (m, { type := TypeContextCanceled
                Message := "Client context canceled"
                Err := some GoCause.contextCanceled }) }
    ∧ (c.Notify admits msgs).err ≠ none
    ∧ (∀ e, (c.Notify admits msgs).err = some e →
        isContextCanceledFlavored e = true) := by
  refine ⟨?_, ?_, ?_⟩
  · simp [Client.Notify, Client.ctxErr, hstop]
  · simp [Client.Notify, Client.ctxErr, hstop]
  · intro e he
    simp [Client.Notify, Client.ctxErr, hstop] at he
    rw [← he]
    rfl

/-- Closed instance of notify_after_stop: a stopped Client on a two-message
batch. -/
theorem notify_after_stop_witness :
    Client.Notify (Client.Stop sampleClient) (fun _ => true) [[1], [2]] =
      { count := 2
        err := some (GoError.raw GoCause.contextCanceled)
        spawned := []
        sink :=
          [([1], { type := TypeContextCanceled,
                   Message := "Client context canceled",
                   Err := some GoCause.contextCanceled }),
           ([2], { type := TypeContextCanceled,
                   Message := "Client context canceled",
                   Err := some GoCause.contextCanceled })] } := by
  have hx := notify_after_stop (Client.Stop sampleClient) (fun _ => true)
    [[1], [2]] rfl (by decide)
  simpa using hx.1

/-- C4: in every state reachable by any interleaving of admissions, worker
exits (whatever the exit path) and stops, the number of outstanding delivery
tasks never exceeds the gate capacity; moreover from any state with a held
slot and a live task, every worker exit path, whatever the outcome of its
three fallible steps, is a step that releases exactly one slot and
decrements the counter by exactly one. -/
theorem gate_capacity_never_exceeded (cap : Nat) (s : GateState)
    (h : GateReachable cap s) :
    s.outstanding ≤ cap
    ∧ (∀ _env : WorkerEnv, 0 < s.slotsUsed → 0 < s.outstanding →
        GateStep cap s
          { s with slotsUsed := s.slotsUsed - 1
                   outstanding := s.outstanding - 1 }) := by
  obtain ⟨h1, h2⟩ := gateReachable_invariant h
  exact ⟨by omega, fun env hs ho => GateStep.taskExit s env hs ho⟩

/-- Closed instance of gate_capacity_never_exceeded: the state reached after
one admission on a capacity-2 gate. -/
theorem gate_capacity_never_exceeded_witness :
    GateState.outstanding
      { stopped := false, slotsUsed := 1, outstanding := 1 } ≤ 2 :=
  (gate_capacity_never_exceeded 2
    { stopped := false, slotsUsed := 1, outstanding := 1 }
    (GateReachable.step GateReachable.init
      (GateStep.acquire { stopped := false, slotsUsed := 0, outstanding := 0 }
        [0] (by decide)))).1

/-- C6: a delivery task invokes the ErrorSink exactly once, with its
original message and a SendError NotifyErr, precisely when one of its three
fallible steps fails; the NotifyErr carries the sub-message of the failing
step (the three sub-messages are pairwise distinct) and Unwrap recovers the
underlying cause; on success no callback is invoked. -/
theorem worker_sink_report (c : Client) (env : WorkerEnv) (m : Message) :
    ((c.worker env m).length ≤ 1)
    ∧ (c.worker env m = [] ↔
        env.newRequest = none ∧ env.limiterWait = none ∧
          env.transportDo = none)
    ∧ (∀ err, env.newRequest = some err →
        ∃ e, c.worker env m = [(m, e)] ∧ e.type = TypeSendError ∧
          e.Message = msgSendErrorRequest ∧ e.Unwrap = some err)
    ∧ (∀ err, env.newRequest = none → env.limiterWait = some err →
        ∃ e, c.worker env m = [(m, e)] ∧ e.type = TypeSendError ∧
          e.Message = msgSendErrorRateLimiter ∧ e.Unwrap = some err)
    ∧ (∀ err, env.newRequest = none → env.limiterWait = none →
        env.transportDo = some err →
        ∃ e, c.worker env m = [(m, e)] ∧ e.type = TypeSendError ∧
          e.Message = msgSendErrorClient ∧ e.Unwrap = some err)
    ∧ msgSendErrorRequest ≠ msgSendErrorRateLimiter
    ∧ msgSendErrorRequest ≠ msgSendErrorClient
    ∧ msgSendErrorRateLimiter ≠ msgSendErrorClient := by
  obtain ⟨r, l, d⟩ := env
  refine ⟨?_, ?_, ?_, ?_, ?_, by decide, by decide, by decide⟩
  · cases r <;> cases l <;> cases d <;> simp [Client.worker]
  · cases r <;> cases l <;> cases d <;> simp [Client.worker]
  · intro err hr
    cases hr
    exact ⟨{ type := TypeSendError, Message := msgSendErrorRequest,
             Err := some err },
      by simp [Client.worker], rfl, rfl, rfl⟩
  · intro err hr hl
    cases hr; cases hl
    exact ⟨{ type := TypeSendError, Message := msgSendErrorRateLimiter,
             Err := some err },
      by simp [Client.worker], rfl, rfl, rfl⟩
  · intro err hr hl hd
    cases hr; cases hl; cases hd
    exact ⟨{ type := TypeSendError, Message := msgSendErrorClient,
             Err := some err },
      by simp [Client.worker], rfl, rfl, rfl⟩

/-- Closed instance of worker_sink_report: a task whose request construction
fails reports exactly one SendError with the request sub-message. -/
theorem worker_sink_report_witness :
    ∃ e, Client.worker sampleClient
        { newRequest := some (GoCause.msg "parse url"),
          limiterWait := none, transportDo := none } [3] = [([3], e)]
      ∧ e.type = TypeSendError ∧ e.Message = msgSendErrorRequest
      ∧ e.Unwrap = some (GoCause.msg "parse url") :=
  (worker_sink_report sampleClient
    { newRequest := some (GoCause.msg "parse url"),
      limiterWait := none, transportDo := none } [3]).2.2.1
    (GoCause.msg "parse url") rfl

/-- C7: the Is check of NotifyErr compares two NotifyErr values by kind
alone, whatever their message texts and wrapped causes, and is false
against every non-NotifyErr target. -/
theorem notifyErr_is_kind_only (e t : NotifyErr) :
    (NotifyErr.Is e (GoError.nerr t) = true ↔ e.type = t.type)
    ∧ (∀ cse : GoCause, NotifyErr.Is e (GoError.raw cse) = false) := by
  constructor
  · simp [NotifyErr.Is]
  · intro cse
    rfl

/-- The handler after folding OnError calls is the last non-nil handler of
the sequence, the initial handler when the sequence has no non-nil entry. -/
theorem applyOnErrorCalls_lastNonNil (c : Client)
    (calls : List (Option Handler)) :
    (applyOnErrorCalls c calls).notifyError = lastNonNil c.notifyError calls := by
  induction calls generalizing c with
  | nil => rfl
  | cons o rest ih =>
      cases o with
      | none =>
          simpa [applyOnErrorCalls, Client.OnError, lastNonNil]
            using ih c
      | some h =>
          simpa [applyOnErrorCalls, Client.OnError, lastNonNil]
            using ih { c with notifyError := h }

/-- C8: OnError with a non-nil handler replaces the ErrorSink, OnError with
a nil handler keeps the previously registered sink unchanged (it does not
revert to the no-op default), and over any sequence of calls the last
non-nil registration wins. -/
theorem onError_replace_or_keep (c : Client) (h : Handler)
    (calls : List (Option Handler)) :
    ((c.OnError (some h)).notifyError = h)
    ∧ ((c.OnError none).notifyError = c.notifyError)
    ∧ ((applyOnErrorCalls c calls).notifyError = lastNonNil c.notifyError calls) :=
  ⟨rfl, rfl, applyOnErrorCalls_lastNonNil c calls⟩

/-- C5, counterexample: with the pristine defaults, an rlimit of 1000 and a
transport whose per-host connection ceiling is 50 but whose per-host idle
ceiling is 10, the nil-configuration capacity the code computes is 50 (the
first hint in check order), while the capacity the claim prescribes (the
smallest positive hint below the minimum) is 10. -/
theorem calculateOptimalWorkersLimit_not_smallest_hint :
    (create "http://example.com" none
        (some { MaxConnsPerHost := 50, MaxIdleConnsPerHost := 10,
                MaxIdleConns := 0 })
        (some 1000) initialWorld).1.workersLimiterCap = 50
    ∧ claimedWorkersLimit 100 1000
        { MaxConnsPerHost := 50, MaxIdleConnsPerHost := 10,
          MaxIdleConns := 0 } = 10
    ∧ (50 : Nat) ≠ 10 := by
  refine ⟨by decide, by decide, by decide⟩

/-- The clamp of the default limit by a successful Getrlimit is the minimum
of the two values. -/
theorem rlimit_clamp_eq_min (d cur : Nat) :
    (if cur < d then cur else d) = min d cur := by
  simp only [Nat.min_def]
  split <;> split <;> omega

/-- A hint that is positive and below the base is selected as soon as it
heads the priority list. -/
theorem firstHintBelow_cons_pos (base : Nat) (a : Int) (rest : List Int)
    (h : 0 < a ∧ a.toNat < base) :
    firstHintBelow base (a :: rest) = a.toNat := by
  unfold firstHintBelow
  rw [List.find?_cons_of_pos]
  simp only [Bool.and_eq_true, decide_eq_true_eq]
  exact h

/-- A hint that is not positive or not below the base is skipped. -/
theorem firstHintBelow_cons_neg (base : Nat) (a : Int) (rest : List Int)
    (h : ¬(0 < a ∧ a.toNat < base)) :
    firstHintBelow base (a :: rest) = firstHintBelow base rest := by
  unfold firstHintBelow
  rw [List.find?_cons_of_neg]
  simp only [Bool.and_eq_true, decide_eq_true_eq]
  exact h

/-- With no hint left the base stands. -/
theorem firstHintBelow_nil (base : Nat) : firstHintBelow base [] = base := rfl

/-- The hint cascade of calculateOptimalWorkersLimit, when Getrlimit
succeeds and the round tripper is an *http.Transport, picks the first hint
in the order MaxConnsPerHost, MaxIdleConnsPerHost, MaxIdleConns that is
positive and below min(default, rlimit). -/
theorem calcOpt_eq_firstHintBelow (d : ClientParams) (cur : Nat)
    (t : Transport) :
    calculateOptimalWorkersLimit d (some cur) (some t)
      = firstHintBelow (min d.MaxConcurrentWorkers cur)
          [t.MaxConnsPerHost, t.MaxIdleConnsPerHost, t.MaxIdleConns] := by
  simp only [calculateOptimalWorkersLimit,
    rlimit_clamp_eq_min d.MaxConcurrentWorkers cur]
  by_cases h1 : 0 < t.MaxConnsPerHost ∧
      t.MaxConnsPerHost.toNat < min d.MaxConcurrentWorkers cur
  · rw [firstHintBelow_cons_pos _ _ _ h1, if_pos h1]
  · rw [firstHintBelow_cons_neg _ _ _ h1, if_neg h1]
    by_cases h2 : 0 < t.MaxIdleConnsPerHost ∧
        t.MaxIdleConnsPerHost.toNat < min d.MaxConcurrentWorkers cur
    · rw [firstHintBelow_cons_pos _ _ _ h2, if_pos h2]
    · rw [firstHintBelow_cons_neg _ _ _ h2, if_neg h2]
      by_cases h3 : 0 < t.MaxIdleConns ∧
          t.MaxIdleConns.toNat < min d.MaxConcurrentWorkers cur
      · rw [firstHintBelow_cons_pos _ _ _ h3, if_pos h3]
      · rw [firstHintBelow_cons_neg _ _ _ h3, if_neg h3,
          firstHintBelow_nil]

/-- Any value firstHintBelow returns for a positive base is positive: a
selected hint is positive by the filter, and otherwise the base itself is
returned. -/
theorem firstHintBelow_pos (base : Nat) (hints : List Int) (hb : 0 < base) :
    0 < firstHintBelow base hints := by
  unfold firstHintBelow
  cases hfind : List.find?
      (fun h => decide (0 < h) && decide (h.toNat < base)) hints with
  | none => simpa using hb
  | some h =>
      have hp := List.find?_some hfind
      simp only [Bool.and_eq_true, decide_eq_true_eq] at hp
      simp
      omega

/-- C5 amended: when configuration is omitted, Getrlimit succeeds and the
round tripper is an *http.Transport, the admission-gate capacity is the
first transport hint, in the fixed priority order MaxConnsPerHost,
MaxIdleConnsPerHost, MaxIdleConns, that is positive and below the minimum
of the current default and the file-descriptor soft limit — not the
smallest such hint — and that minimum itself when no hint qualifies. -/
theorem create_nil_capacity_first_hint (w : World) (url : String)
    (t : Transport) (cur : Nat)
    (hd : 0 < w.DefaultParams.MaxConcurrentWorkers) (hc : 0 < cur) :
    (create url none (some t) (some cur) w).1.workersLimiterCap
      = firstHintBelow (min w.DefaultParams.MaxConcurrentWorkers cur)
          [t.MaxConnsPerHost, t.MaxIdleConnsPerHost, t.MaxIdleConns] := by
  have hbase : 0 < min w.DefaultParams.MaxConcurrentWorkers cur := by
    simp [Nat.lt_min]
    exact ⟨hd, hc⟩
  have hpos := firstHintBelow_pos
    (min w.DefaultParams.MaxConcurrentWorkers cur)
    [t.MaxConnsPerHost, t.MaxIdleConnsPerHost, t.MaxIdleConns] hbase
  have hcalc := calcOpt_eq_firstHintBelow w.DefaultParams cur t
  simp only [create, hcalc]
  rw [if_neg (by omega)]

/-- Closed instance of create_nil_capacity_first_hint: pristine defaults,
rlimit 1000, per-host ceiling 50 and per-host idle ceiling 10 give
capacity 50. -/
theorem create_nil_capacity_first_hint_witness :
    (create "http://example.com" none
        (some { MaxConnsPerHost := 50, MaxIdleConnsPerHost := 10,
                MaxIdleConns := 0 })
        (some 1000) initialWorld).1.workersLimiterCap
      = firstHintBelow (min initialWorld.DefaultParams.MaxConcurrentWorkers 1000)
          [50, 10, 0]
    ∧ firstHintBelow (min initialWorld.DefaultParams.MaxConcurrentWorkers 1000)
          [50, 10, 0] = 50 :=
  ⟨create_nil_capacity_first_hint initialWorld "http://example.com"
      { MaxConnsPerHost := 50, MaxIdleConnsPerHost := 10, MaxIdleConns := 0 }
      1000 (by decide) (by decide),
   by decide⟩

/-- With no rlimit and no *http.Transport the sizing policy returns the
current default unchanged. -/
theorem calcOpt_none_none (d : ClientParams) :
    calculateOptimalWorkersLimit d none none = d.MaxConcurrentWorkers := rfl

/-- A nil-params construction whose computed limit is nonzero stores that
limit in the returned World and uses it as the gate capacity. -/
theorem create_none_parts (u : String) (t : Option Transport) (rl : Option Nat)
    (w : World) (h : calculateOptimalWorkersLimit w.DefaultParams rl t ≠ 0) :
    (create u none t rl w).2.DefaultParams
      = { w.DefaultParams with
          MaxConcurrentWorkers := calculateOptimalWorkersLimit w.DefaultParams rl t }
    ∧ (create u none t rl w).1.workersLimiterCap
      = calculateOptimalWorkersLimit w.DefaultParams rl t := by
  simp only [create]
  rw [if_neg h]
  exact ⟨rfl, rfl⟩

/-- C9: constructing a Client with nil configuration writes the computed
optimal worker limit into the shared DefaultParams global, and a later
nil-configuration construction (here one whose Getrlimit fails and whose
round tripper is not an *http.Transport, so that nothing else clamps it)
observes that written value as its own capacity instead of the original
default. -/
theorem create_nil_mutates_defaultParams (w : World) (u1 u2 : String)
    (t : Option Transport) (rl : Option Nat)
    (h : calculateOptimalWorkersLimit w.DefaultParams rl t ≠ 0) :
    ((create u1 none t rl w).2).DefaultParams.MaxConcurrentWorkers
        = calculateOptimalWorkersLimit w.DefaultParams rl t
    ∧ ((create u2 none none none ((create u1 none t rl w).2)).1).workersLimiterCap
        = calculateOptimalWorkersLimit w.DefaultParams rl t := by
  obtain ⟨hw, _⟩ := create_none_parts u1 t rl w h
  have h2 : calculateOptimalWorkersLimit
      ((create u1 none t rl w).2).DefaultParams none none ≠ 0 := by
    rw [calcOpt_none_none, hw]
    simpa using h
  obtain ⟨_, hcap⟩ := create_none_parts u2 none none
    ((create u1 none t rl w).2) h2
  constructor
  · rw [hw]
  · rw [hcap, calcOpt_none_none, hw]

/-- Closed instance of create_nil_mutates_defaultParams: a transport with
per-host ceiling 30 makes the first construction write 30 into
DefaultParams, and the second construction observes capacity 30 rather
than the original default 100. -/
theorem create_nil_mutates_defaultParams_witness :
    initialWorld.DefaultParams.MaxConcurrentWorkers = 100
    ∧ ((create "a" none
          (some { MaxConnsPerHost := 30, MaxIdleConnsPerHost := 0,
                  MaxIdleConns := 0 })
          (some 1024) initialWorld).2).DefaultParams.MaxConcurrentWorkers
        = calculateOptimalWorkersLimit initialWorld.DefaultParams (some 1024)
            (some { MaxConnsPerHost := 30, MaxIdleConnsPerHost := 0,
                    MaxIdleConns := 0 })
    ∧ ((create "b" none none none
          ((create "a" none
              (some { MaxConnsPerHost := 30, MaxIdleConnsPerHost := 0,
                      MaxIdleConns := 0 })
              (some 1024) initialWorld).2)).1).workersLimiterCap
        = calculateOptimalWorkersLimit initialWorld.DefaultParams (some 1024)
            (some { MaxConnsPerHost := 30, MaxIdleConnsPerHost := 0,
                    MaxIdleConns := 0 })
    ∧ calculateOptimalWorkersLimit initialWorld.DefaultParams (some 1024)
        (some { MaxConnsPerHost := 30, MaxIdleConnsPerHost := 0,
                MaxIdleConns := 0 }) = 30
    ∧ (30 : Nat) ≠ 100 := by
  have hx := create_nil_mutates_defaultParams initialWorld "a" "b"
    (some { MaxConnsPerHost := 30, MaxIdleConnsPerHost := 0,
            MaxIdleConns := 0 })
    (some 1024) (by decide)
  exact ⟨by decide, hx.1, hx.2, by decide, by decide⟩

/-- C10: an empty batch spawns no task and invokes the ErrorSink zero times;
the call returns (0, nil) on a non-stopped Client and (0, context.Canceled)
on a stopped one. -/
theorem notify_empty_batch (c : Client) (admits : Nat → Bool) :
    (c.Notify admits []).spawned = []
    ∧ (c.Notify admits []).sink = []
    ∧ (c.Notify admits []).count = 0
    ∧ (c.stopped = false → (c.Notify admits []).err = none)
    ∧ (c.stopped = true →
        (c.Notify admits []).err = some (GoError.raw GoCause.contextCanceled)) := by
  cases hs : c.stopped <;>
    simp [Client.Notify, Client.ctxErr, hs, notifyLoop]

/-- Closed instance of notify_empty_batch, on a live and on a stopped
Client. -/
theorem notify_empty_batch_witness :
    (Client.Notify sampleClient (fun _ => true) []).err = none
    ∧ (Client.Notify (Client.Stop sampleClient) (fun _ => true) []).err =
        some (GoError.raw GoCause.contextCanceled) :=
  ⟨(notify_empty_batch sampleClient (fun _ => true)).2.2.2.1 rfl,
   (notify_empty_batch (Client.Stop sampleClient) (fun _ => true)).2.2.2.2 rfl⟩

end Notifier
